import Mathlib

/-!
Verification development for the admonition preprocessor (`src/markdown.rs`).

The driver `preprocess` is embedded from `src/markdown.rs`.  The external
markdown tokenizer is out of scope for the system (spec §1): here it appears as
an explicit list of `(event, span)` pairs, exactly the interface `preprocess`
consumes.  The collaborating components (directive parser, renderers, id
allocator, kind registry) are declared in the repository but their code is not
part of the provided sources; they are modelled from the spec (§§3-4), each
marked `Modelled from the spec:`, and calibrated against the byte-exact
expectations of the tests in `src/markdown.rs`.

All modelled documents are ASCII, so the byte offsets of the source coincide
with the char offsets used by this embedding.
-/

set_option maxRecDepth 100000

namespace MdbookAdmonish

/-- A source span `[start, stop)` of a fenced block, in document offsets,
as delivered by the tokenizer's offset iterator. -/
structure Span where
  start : Nat
  stop : Nat
deriving DecidableEq

/-- `OnFailure` from `book_config`: error-recovery policy (spec §3). -/
inductive OnFailure
  | Continue
  | Bail
deriving DecidableEq

/-- `RenderTextMode` from `types`: selects the renderer (spec §3). -/
inductive RenderTextMode
  | Html
  | Strip
deriving DecidableEq

/-- `AdmonitionDefaults` from `types`: externally configured defaults
(spec §3). -/
structure AdmonitionDefaults where
  title : Option String := none
  collapsible : Bool := false

/-- Modelled from the spec: the closed set of admonition kinds of the Kind
Registry (spec §3).  `example` is a Lean keyword, hence `exampleKind`. -/
inductive AdmonitionKind
  | note
  | abstract
  | info
  | tip
  | success
  | question
  | warning
  | caution
  | failure
  | danger
  | bug
  | exampleKind
  | quote
deriving DecidableEq

namespace AdmonitionKind

/-- Modelled from the spec: each kind's default display title (spec §3). -/
def defaultTitle : AdmonitionKind → String
  | note => "Note"
  | abstract => "Abstract"
  | info => "Info"
  | tip => "Tip"
  | success => "Success"
  | question => "Question"
  | warning => "Warning"
  | caution => "Caution"
  | failure => "Failure"
  | danger => "Danger"
  | bug => "Bug"
  | exampleKind => "Example"
  | quote => "Quote"

/-- Modelled from the spec: each kind's CSS class; `caution` aliases the
`warning` class while keeping its own default title (spec §3, §8). -/
def cssClass : AdmonitionKind → String
  | note => "note"
  | abstract => "abstract"
  | info => "info"
  | tip => "tip"
  | success => "success"
  | question => "question"
  | warning => "warning"
  | caution => "warning"
  | failure => "failure"
  | danger => "danger"
  | bug => "bug"
  | exampleKind => "example"
  | quote => "quote"

/-- Modelled from the spec: the header token naming each kind. -/
def token : AdmonitionKind → String
  | note => "note"
  | abstract => "abstract"
  | info => "info"
  | tip => "tip"
  | success => "success"
  | question => "question"
  | warning => "warning"
  | caution => "caution"
  | failure => "failure"
  | danger => "danger"
  | bug => "bug"
  | exampleKind => "example"
  | quote => "quote"

end AdmonitionKind

/-- Modelled from the spec: registry lookup; an unrecognized token yields
`none` and the caller falls back to `note` (spec §3). -/
def kindOfToken (s : String) : Option AdmonitionKind :=
  if s = "note" then some .note
  else if s = "abstract" then some .abstract
  else if s = "info" then some .info
  else if s = "tip" then some .tip
  else if s = "success" then some .success
  else if s = "question" then some .question
  else if s = "warning" then some .warning
  else if s = "caution" then some .caution
  else if s = "failure" then some .failure
  else if s = "danger" then some .danger
  else if s = "bug" then some .bug
  else if s = "example" then some .exampleKind
  else if s = "quote" then some .quote
  else none

/-! ### Character-list utilities -/

/-- Horizontal whitespace. -/
def isWs (c : Char) : Bool := c = ' ' || c = '\t'

/-- Split a char list on a separator character (keeping empty segments). -/
def splitOnChar (sep : Char) : List Char → List (List Char)
  | [] => [[]]
  | c :: rest =>
    match splitOnChar sep rest with
    | [] => [[]]
    | l :: ls => if c = sep then [] :: l :: ls else (c :: l) :: ls

/-- The lines of a char list. -/
def linesOf (s : List Char) : List (List Char) := splitOnChar '\n' s

/-- Strip an expected literal from the front of a list. -/
def stripPre : List Char → List Char → Option (List Char)
  | [], rest => some rest
  | _, [] => none
  | p :: ps, c :: cs => if p = c then stripPre ps cs else none

/-- Trim horizontal whitespace from both ends. -/
def trimChars (l : List Char) : List Char :=
  ((l.dropWhile isWs).reverse.dropWhile isWs).reverse

/-- Take the first `n` chars of a string. -/
def strTake (s : String) (n : Nat) : String := String.mk (s.data.take n)

/-- Drop the first `n` chars of a string. -/
def strDrop (s : String) (n : Nat) : String := String.mk (s.data.drop n)

/-- The slice `s[a..b]` of a string (char offsets). -/
def strSlice (s : String) (a b : Nat) : String := String.mk ((s.data.take b).drop a)

/-- `needle` occurs as a contiguous substring of `haystack`. -/
def containsSub (haystack needle : String) : Prop :=
  needle.data <:+: haystack.data

instance (h n : String) : Decidable (containsSub h n) := by
  unfold containsSub; infer_instance

/-! ### The trigger keyword and the fenced body -/

/-- Modelled from the spec: a fenced block is a candidate iff its info string,
trimmed, begins with the trigger keyword `admonish`, optionally followed by
whitespace and further header text (spec §4.1).  Returns the header text. -/
def infoHeader (info : String) : Option String :=
  if info = "admonish" then some ""
  else
    match stripPre "admonish ".data info.data with
    | some rest => some (String.mk rest)
    | none => none

/-- Modelled from the spec: the verbatim fenced content of a block - the span
text minus its opening fence line and closing fence line (spec §3: `body: raw
text (verbatim fenced content)`). -/
def extractBody (spanContent : String) : String :=
  let ls := linesOf spanContent.data
  String.mk (List.intercalate ['\n'] ((ls.drop 1).dropLast))

/-! ### Directive parser (spec §4.2) -/

/-- The raw outcome of parsing a directive header, before defaults are
applied. -/
structure Directive where
  kindToken : Option String := none
  rawTitle : Option String := none
  classes : List String := []
  collapsible : Option Bool := none

/-- Modelled from the spec: detect an unescaped `=` outside quotes, the
disambiguator between the attribute grammar and the legacy grammar
(spec §4.2, §9). -/
def hasUnquotedEq : List Char → Bool → Bool
  | [], _ => false
  | '\\' :: _ :: rest, inQ => hasUnquotedEq rest inQ
  | '"' :: rest, inQ => hasUnquotedEq rest (!inQ)
  | '=' :: rest, inQ => if inQ then hasUnquotedEq rest inQ else true
  | _ :: rest, inQ => hasUnquotedEq rest inQ

/-- Modelled from the spec: parse a double-quoted string body (opening quote
already consumed), handling escaped characters (`\"` stands for `"`); `none`
on an unterminated string (spec §4.2, §6). -/
def parseQuoted : List Char → Option (List Char × List Char)
  | [] => none
  | '"' :: rest => some ([], rest)
  | '\\' :: c :: rest =>
    match parseQuoted rest with
    | some (s, r) => some (c :: s, r)
    | none => none
  | c :: rest =>
    match parseQuoted rest with
    | some (s, r) => some (c :: s, r)
    | none => none

/-- Split a class attribute value on spaces into class names. -/
def splitClassValue (l : List Char) : List String :=
  ((splitOnChar ' ' l).filter (fun seg => seg ≠ [])).map String.mk

/-- Modelled from the spec: the attribute-table grammar
`KEY '=' VALUE` pairs with `KEY ∈ {class, title, collapsible}`, `VALUE` a
quoted string or a boolean literal; malformed input is a structured parse
error (spec §4.2, §6). Fuel-driven recursion over the remaining header. -/
def parseAttrsAux : Nat → List Char → Directive → Except String Directive
  | 0, _, _ => .error "attribute table: parser fuel exhausted"
  | fuel + 1, l, acc =>
    match l.dropWhile isWs with
    | [] => .ok acc
    | rest =>
      let key := rest.takeWhile fun c => !(isWs c) && c ≠ '='
      let afterKey := rest.drop key.length
      match afterKey with
      | '=' :: afterEq =>
        match afterEq with
        | '"' :: v =>
          match parseQuoted v with
          | none => .error "attribute table: unterminated basic string"
          | some (value, afterVal) =>
            let acc' :=
              if key = "title".data then some { acc with rawTitle := some (String.mk value) }
              else if key = "class".data then some { acc with classes := splitClassValue value }
              else none
            match acc' with
            | some acc' => parseAttrsAux fuel afterVal acc'
            | none =>
              if key = "collapsible".data then
                .error "attribute table: expected a boolean for key collapsible"
              else .error "attribute table: unknown key"
        | _ =>
          let value := afterEq.takeWhile fun c => !(isWs c)
          let afterVal := afterEq.drop value.length
          if key = "collapsible".data then
            if value = "true".data then
              parseAttrsAux fuel afterVal { acc with collapsible := some true }
            else if value = "false".data then
              parseAttrsAux fuel afterVal { acc with collapsible := some false }
            else .error "attribute table: invalid boolean value"
          else .error "attribute table: expected a quoted string value"
      | _ => .error "attribute table: expected key=value"

/-- Modelled from the spec: attribute-grammar header: an optional leading bare
kind token, then the attribute table (spec §6: `KIND? (WS KEY '=' VALUE)*`). -/
def parseAttrHeader (h : List Char) : Except String Directive :=
  let firstWord := h.takeWhile fun c => !(isWs c)
  if firstWord ≠ [] && firstWord.all (fun c => c ≠ '=' && c ≠ '"') then
    (parseAttrsAux (h.length + 1) (h.drop firstWord.length)
      { kindToken := some (String.mk firstWord) })
  else
    parseAttrsAux (h.length + 1) h {}

/-- Modelled from the spec: the legacy positional grammar
`KIND? ('.' CLASSNAME)* (WS '"' TITLE '"')?`; empty dot-segments are omitted;
an unterminated quoted title is a parse error (spec §4.2, §6, §7). -/
def parseLegacyHeader (h : List Char) : Except String Directive :=
  let kindPart := h.takeWhile fun c => !(isWs c)
  let segs := splitOnChar '.' kindPart
  let kindToken :=
    match segs with
    | [] => none
    | first :: _ => if first = [] then none else some (String.mk first)
  let classes := ((segs.drop 1).filter (fun seg => seg ≠ [])).map String.mk
  let rest := (h.drop kindPart.length).dropWhile isWs
  match rest with
  | [] => .ok { kindToken, classes }
  | '"' :: r =>
    match parseQuoted r with
    | none => .error "legacy header: unterminated title string"
    | some (t, r2) =>
      if r2.dropWhile isWs = [] then
        .ok { kindToken, classes, rawTitle := some (String.mk t) }
      else .error "legacy header: unexpected trailing characters after title"
  | _ => .error "legacy header: expected a quoted title"

/-- Modelled from the spec: the Directive Parser's grammar resolution: empty
header means all defaults; an unescaped `=` outside quotes selects the
attribute grammar, otherwise the legacy grammar applies (spec §4.2). -/
def parseDirective (header : String) : Except String Directive :=
  let h := trimChars header.data
  if h = [] then .ok {}
  else if hasUnquotedEq h false then parseAttrHeader h
  else parseLegacyHeader h

/-! ### The admonition specification and its resolution -/

/-- `AdmonitionSpec` (spec §3), with title resolution already applied:
`title = none` means the title block is suppressed. -/
structure Admonish where
  cssClass : String
  title : Option String
  extraClasses : List String
  collapsible : Bool
  body : String

/-- Modelled from the spec: apply external defaults to the parsed directive.
`title = None` uses the kind's default title, or the externally supplied
default title when the kind itself is unspecified; an explicit empty title
suppresses the title block entirely (spec §3). -/
def resolveDirective (d : Directive) (defaults : AdmonitionDefaults) (body : String) : Admonish :=
  let kind := (d.kindToken.bind kindOfToken).getD .note
  let title : Option String :=
    match d.rawTitle with
    | some t => if t = "" then none else some t
    | none =>
      match d.kindToken with
      | some _ => some kind.defaultTitle
      | none => some (defaults.title.getD AdmonitionKind.note.defaultTitle)
  { cssClass := kind.cssClass
    title
    extraClasses := d.classes
    collapsible := d.collapsible.getD defaults.collapsible
    body }

/-! ### Id allocator (spec §4.3) -/

/-- Decimal digit to character. -/
def digitChar : Nat → Char
  | 0 => '0'
  | 1 => '1'
  | 2 => '2'
  | 3 => '3'
  | 4 => '4'
  | 5 => '5'
  | 6 => '6'
  | 7 => '7'
  | 8 => '8'
  | 9 => '9'
  | _ => '?'

/-- Little-endian decimal digits of `n`, with fuel (`fuel ≥ n` suffices). -/
def digitsRevAux : Nat → Nat → List Nat
  | _, 0 => []
  | 0, _ + 1 => []
  | fuel + 1, n + 1 => ((n + 1) % 10) :: digitsRevAux fuel ((n + 1) / 10)

/-- Decimal rendering of a positive natural number (the repeat suffix of an
allocated id). -/
def natDecimal (n : Nat) : String :=
  String.mk (((digitsRevAux n n).map digitChar).reverse)

/-- The id allocator's state: slug to repeat counter, `0` meaning unused
(spec §3). -/
def IdCounter : Type := String → Nat

/-- The fresh per-pass allocator state. -/
def IdCounter.init : IdCounter := fun _ => 0

/-- Modelled from the spec: `allocate(slug)`: first use of a slug yields
`admonition-<slug>`, the n-th repeat yields `admonition-<slug>-<n>`
(spec §3, §4.3). -/
def allocate (counter : IdCounter) (slug : String) : String × IdCounter :=
  let n := counter slug
  let id :=
    if n = 0 then "admonition-" ++ slug
    else "admonition-" ++ slug ++ "-" ++ natDecimal n
  (id, fun s => if s = slug then n + 1 else counter s)

/-! ### Slug normalization (spec §3, RawTitle) -/

/-- ASCII lowercase. -/
def asciiLower (c : Char) : Char :=
  match c with
  | 'A' => 'a' | 'B' => 'b' | 'C' => 'c' | 'D' => 'd' | 'E' => 'e'
  | 'F' => 'f' | 'G' => 'g' | 'H' => 'h' | 'I' => 'i' | 'J' => 'j'
  | 'K' => 'k' | 'L' => 'l' | 'M' => 'm' | 'N' => 'n' | 'O' => 'o'
  | 'P' => 'p' | 'Q' => 'q' | 'R' => 'r' | 'S' => 's' | 'T' => 't'
  | 'U' => 'u' | 'V' => 'v' | 'W' => 'w' | 'X' => 'x' | 'Y' => 'y'
  | 'Z' => 'z' | c => c

/-- A character that survives into a slug. -/
def isSlugChar (c : Char) : Bool :=
  ('a' ≤ c && c ≤ 'z') || ('0' ≤ c && c ≤ '9')

/-- Drop HTML tags (text between `<` and `>`). -/
def stripTags : List Char → Bool → List Char
  | [], _ => []
  | '<' :: rest, _ => stripTags rest true
  | '>' :: rest, _ => stripTags rest false
  | _ :: rest, true => stripTags rest true
  | c :: rest, false => c :: stripTags rest false

/-- Collapse every run of non-slug characters to a single hyphen; the flag
records whether we are at the start or just emitted a hyphen. -/
def slugCollapse : List Char → Bool → List Char
  | [], _ => []
  | c :: rest, atHyphen =>
    if isSlugChar c then c :: slugCollapse rest false
    else if atHyphen then slugCollapse rest atHyphen
    else '-' :: slugCollapse rest true

/-- Modelled from the spec: the normalized slug of a raw title: lowercased,
markup stripped, non `[a-z0-9]` runs collapsed to single hyphens,
leading/trailing hyphens trimmed; an empty result becomes the literal slug
`default` (spec §3). -/
def slugify (title : String) : String :=
  let collapsed := slugCollapse ((stripTags title.data false).map asciiLower) true
  let trimmed := (collapsed.reverse.dropWhile (fun c => c = '-')).reverse
  if trimmed = [] then "default" else String.mk trimmed

/-! ### Renderers (spec §4.4) -/

/-- Modelled from the spec: the external inline-markdown renderer
`render_inline_markdown` (spec §1, out of scope), modelled as the identity:
every title in this development is plain inline text, on which the renderer
is the identity. -/
def renderInlineMarkdown (s : String) : String := s

/-- Each extra class, prefixed by a space. -/
def joinClasses : List String → String
  | [] => ""
  | c :: rest => " " ++ c ++ joinClasses rest

/-- Modelled from the spec: the HTML renderer: outer container (`details` if
collapsible, else `div`) with id and classes; a title wrapper (`summary` or
`div`) with class `admonition-title` and the anchor link, omitted when the
title is suppressed; an unclassed body `div` holding the raw body verbatim;
blank lines around inner content (spec §4.4, §6; byte format from the
expectations in `src/markdown.rs`). -/
def htmlRender (a : Admonish) (id : String) : String :=
  let tag := if a.collapsible then "details" else "div"
  let ttag := if a.collapsible then "summary" else "div"
  let titleSection :=
    match a.title with
    | none => ""
    | some t =>
      "<" ++ ttag ++ " class=\"admonition-title\">\n\n" ++ renderInlineMarkdown t ++
        "\n\n<a class=\"admonition-anchor-link\" href=\"#" ++ id ++ "\"></a>\n</" ++ ttag ++ ">\n"
  "\n<" ++ tag ++ " id=\"" ++ id ++ "\" class=\"admonition " ++ a.cssClass ++
    joinClasses a.extraClasses ++ "\">\n" ++ titleSection ++ "<div>\n\n" ++ a.body ++
    "\n\n</div>\n</" ++ tag ++ ">"

/-- The slug base of an admonition: its resolved title (empty when the title
is suppressed, normalizing to the literal slug `default`). -/
def Admonish.slugBase (a : Admonish) : String := slugify (a.title.getD "")

/-- Modelled from the spec: render to HTML with a freshly allocated unique id,
threading the allocator state (spec §4.3, §4.4). -/
def Admonish.html_with_unique_ids (a : Admonish) (counter : IdCounter) : String × IdCounter :=
  let alloc := allocate counter a.slugBase
  (htmlRender a alloc.1, alloc.2)

/-- Modelled from the spec: the Strip renderer: only the raw body content,
surrounded by blank lines (spec §4.4). -/
def Admonish.strip (a : Admonish) : String := "\n" ++ a.body ++ "\n"

/-! ### Error recovery (spec §4.5) -/

/-- The longest run of backticks in a char list (current run, max so far). -/
def maxBacktickRun : List Char → Nat → Nat → Nat
  | [], cur, mx => max cur mx
  | '`' :: rest, cur, mx => maxBacktickRun rest (cur + 1) mx
  | _ :: rest, cur, mx => maxBacktickRun rest 0 (max cur mx)

/-- A backtick fence delimiter one longer than any run inside `s`. -/
def fenceFor (s : String) : String :=
  String.mk (List.replicate (maxBacktickRun s.data 0 0 + 1) '`')

/-- Modelled from the spec: on a parse failure under `Continue`, synthesize a
`bug` admonition titled `Error rendering admonishment` whose body is a
log-fenced block with the error message followed by a fenced reproduction of
the original, untouched source span, using a delimiter run longer than any
inside it (spec §4.5). -/
def errorAdmonish (msg : String) (spanContent : String) : Admonish :=
  let fence := fenceFor spanContent
  { cssClass := "bug"
    title := some "Error rendering admonishment"
    extraClasses := []
    collapsible := false
    body := "Failed with:\n\n```log\n" ++ msg ++ "\n```\n\nOriginal markdown input:\n\n" ++
      fence ++ "markdown\n" ++ spanContent ++ "\n" ++ fence ++ "\n" }

/-- `parse_admonition` (declared in `parse`, called by `preprocess`):
`none` when the info string does not carry the trigger keyword; otherwise the
parsed admonition, a synthesized error admonition (`Continue`), or a
terminating error embedding the original span (`Bail`).  Modelled from the
spec (§4.2, §4.5) for the code not present under `src/`. -/
def parse_admonition (info : String) (defaults : AdmonitionDefaults)
    (spanContent : String) (onFailure : OnFailure) : Option (Except String Admonish) :=
  match infoHeader info with
  | none => none
  | some header =>
    match parseDirective header with
    | .ok d => some (.ok (resolveDirective d defaults (extractBody spanContent)))
    | .error msg =>
      match onFailure with
      | .Bail => some (.error ("Error processing admonition, bailing:\n" ++ spanContent))
      | .Continue => some (.ok (errorAdmonish msg spanContent))

/-! ### The driver: scanner and splicer (`preprocess` in `src/markdown.rs`) -/

/-- Tokenizer events, reduced to what `preprocess` inspects: the start of a
fenced code block (with its info string), or anything else. -/
inductive MdEvent
  | fencedCodeStart (infoString : String)
  | otherEvent

/-- The scanning loop of `preprocess` (`src/markdown.rs:28-53`): walk events,
and for each fenced block recognized by `parse_admonition`, render it in the
selected mode (threading the id counter) and record `(span, replacement)`;
a `Bail` parse error aborts the whole pass. -/
def scanEvents (content : String) (events : List (MdEvent × Span)) (onFailure : OnFailure)
    (defaults : AdmonitionDefaults) (mode : RenderTextMode) (counter : IdCounter) :
    Except String (List (Span × String)) :=
  match events with
  | [] => .ok []
  | (MdEvent.otherEvent, _) :: rest => scanEvents content rest onFailure defaults mode counter
  | (MdEvent.fencedCodeStart info, span) :: rest =>
    let spanContent := strSlice content span.start span.stop
    match parse_admonition info defaults spanContent onFailure with
    | none => scanEvents content rest onFailure defaults mode counter
    | some (.error e) => .error e
    | some (.ok adm) =>
      let step : String × IdCounter :=
        match mode with
        | .Html => adm.html_with_unique_ids counter
        | .Strip => (adm.strip, counter)
      (scanEvents content rest onFailure defaults mode step.2).map
        (fun bs => (span, step.1) :: bs)

/-- The splicing pass of `preprocess` (`src/markdown.rs:55-60`): apply the
collected replacements from last to first, each replacing
`content[span.start..span.stop]`. -/
def splice (content : String) (blocks : List (Span × String)) : String :=
  blocks.reverse.foldl
    (fun c sb => strTake c sb.1.start ++ sb.2 ++ strDrop c sb.1.stop) content

/-- `preprocess` (`src/markdown.rs:11-63`), with the external tokenizer's
event stream passed explicitly. -/
def preprocess (content : String) (events : List (MdEvent × Span)) (onFailure : OnFailure)
    (defaults : AdmonitionDefaults) (mode : RenderTextMode) : Except String String :=
  match scanEvents content events onFailure defaults mode IdCounter.init with
  | .error e => .error e
  | .ok blocks => .ok (splice content blocks)

/-! ### Statement vocabulary and concrete scenario data -/

/-- The value of a little-endian decimal digit list. -/
def fromDigitsLE : List Nat → Nat
  | [] => 0
  | d :: ds => d + 10 * fromDigitsLE ds

/-- Run the allocator over an ordered sequence of slugs, threading its
state: the ordered sequence of `allocate` calls of one document pass. -/
def allocateRunAux (counter : IdCounter) : List String → List String
  | [] => []
  | s :: rest =>
    let a := allocate counter s
    a.1 :: allocateRunAux a.2 rest

/-- The ids returned by a fixed ordered sequence of `allocate` calls within
one pass, starting from the fresh per-pass state. -/
def allocateRun (slugs : List String) : List String :=
  allocateRunAux IdCounter.init slugs

/-- The id the spec promises for a slug with `priorUses` earlier uses:
`admonition-<slug>` on first use, `admonition-<slug>-<n>` on the n-th
repeat. -/
def expectedId (slug : String) (priorUses : Nat) : String :=
  if priorUses = 0 then "admonition-" ++ slug
  else "admonition-" ++ slug ++ "-" ++ natDecimal priorUses

/-- The replacement spans are an ordered, pairwise-disjoint, in-bounds chain
starting at offset `pos`: exactly how the tokenizer delivers them in document
order (spec §4.1, §4.6). -/
def spanChain (pos len : Nat) : List (Span × String) → Bool
  | [] => true
  | (sp, _) :: rest =>
    decide (pos ≤ sp.start) && decide (sp.start ≤ sp.stop) && decide (sp.stop ≤ len) &&
      spanChain sp.stop len rest

/-- The specification-side description of splicing: the output is the
original text with exactly the recognized spans substituted, every byte
outside the spans unchanged and in original relative order. -/
def interleave (c : List Char) (pos : Nat) : List (Span × String) → List Char
  | [] => c.drop pos
  | (sp, r) :: rest => ((c.drop pos).take (sp.start - pos)) ++ r.data ++ interleave c sp.stop rest

/-- The rendered form of the `Hidden` note block, abstracted over the outer
container tag and the title wrapper tag: the collapsible and non-collapsible
outputs are this one structure at different tags. -/
def noteHiddenHtml (tag ttag : String) : String :=
  "\n<" ++ tag ++ " id=\"admonition-note\" class=\"admonition note\">\n<" ++ ttag ++
    " class=\"admonition-title\">\n\nNote\n\n<a class=\"admonition-anchor-link\" href=\"#admonition-note\"></a>\n</" ++
    ttag ++ ">\n<div>\n\nHidden\n\n</div>\n</" ++ tag ++ ">"

/-- The malformed-then-valid document of the error-recovery scenario: a block
with an unterminated attribute string, followed by a well-formed block. -/
def errorDoc : String :=
  "\n```admonish title=\"\nBonus content!\n```\n\n```admonish\nStill works.\n```\n"

/-- The tokenizer events for `errorDoc`. -/
def errorDocEvents : List (MdEvent × Span) :=
  [(MdEvent.fencedCodeStart "admonish title=\"", ⟨1, 39⟩),
   (MdEvent.fencedCodeStart "admonish", ⟨41, 69⟩)]

/-- The `Continue`-mode output for `errorDoc`: the synthesized bug admonition
followed by the normally rendered second block. -/
def errorDocExpected : String :=
  "\n\n<div id=\"admonition-error-rendering-admonishment\" class=\"admonition bug\">\n<div class=\"admonition-title\">\n\nError rendering admonishment\n\n<a class=\"admonition-anchor-link\" href=\"#admonition-error-rendering-admonishment\"></a>\n</div>\n<div>\n\nFailed with:\n\n```log\nattribute table: unterminated basic string\n```\n\nOriginal markdown input:\n\n````markdown\n```admonish title=\"\nBonus content!\n```\n````\n\n\n</div>\n</div>\n\n\n<div id=\"admonition-note\" class=\"admonition note\">\n<div class=\"admonition-title\">\n\nNote\n\n<a class=\"admonition-anchor-link\" href=\"#admonition-note\"></a>\n</div>\n<div>\n\nStill works.\n\n</div>\n</div>\n"

/-- The admonition an explicit-empty-title block resolves to: suppressed
title, the block's kind, the externally configured collapsible default. -/
def emptyTitleAdmonish (k : AdmonitionKind) (collapsible : Bool) : Admonish :=
  { cssClass := k.cssClass
    title := none
    extraClasses := []
    collapsible
    body := "A simple admonition." }

/-! ## Helper lemmas -/

/-- If no fenced-block event carries the trigger keyword, the scanning loop
collects no replacements. -/
theorem scanEvents_no_trigger (content : String) (events : List (MdEvent × Span))
    (onFailure : OnFailure) (defaults : AdmonitionDefaults) (mode : RenderTextMode)
    (counter : IdCounter)
    (h : ∀ info span, (MdEvent.fencedCodeStart info, span) ∈ events → infoHeader info = none) :
    scanEvents content events onFailure defaults mode counter = .ok [] := by
  induction events generalizing counter with
  | nil => rfl
  | cons e rest ih =>
    obtain ⟨ev, sp⟩ := e
    have hrest : ∀ info span, (MdEvent.fencedCodeStart info, span) ∈ rest →
        infoHeader info = none :=
      fun info span hm => h info span (List.mem_cons_of_mem _ hm)
    cases ev with
    | otherEvent =>
      simp only [scanEvents]
      exact ih counter hrest
    | fencedCodeStart info =>
      have hnone : infoHeader info = none := h info sp (List.mem_cons_self _ _)
      simp only [scanEvents, parse_admonition, hnone]
      exact ih counter hrest

/-- Under `Continue`, `parse_admonition` never reports an error: a parse
failure is converted to a rendered bug admonition. -/
theorem parse_admonition_continue_ok (info : String) (d : AdmonitionDefaults) (s : String) :
    parse_admonition info d s .Continue = none ∨
    ∃ a, parse_admonition info d s .Continue = some (.ok a) := by
  unfold parse_admonition
  split
  · exact Or.inl rfl
  · split
    · exact Or.inr ⟨_, rfl⟩
    · exact Or.inr ⟨_, rfl⟩

/-- Under `Continue`, the scanning loop always succeeds. -/
theorem scanEvents_continue_ok (content : String) (events : List (MdEvent × Span))
    (defaults : AdmonitionDefaults) (mode : RenderTextMode) (counter : IdCounter) :
    ∃ bs, scanEvents content events .Continue defaults mode counter = .ok bs := by
  induction events generalizing counter with
  | nil => exact ⟨[], rfl⟩
  | cons e rest ih =>
    obtain ⟨ev, sp⟩ := e
    cases ev with
    | otherEvent =>
      simp only [scanEvents]
      exact ih counter
    | fencedCodeStart info =>
      rcases parse_admonition_continue_ok info defaults
          (strSlice content sp.start sp.stop) with hn | ⟨a, ha⟩
      · simp only [scanEvents, hn]
        exact ih counter
      · cases mode with
        | Html =>
          obtain ⟨bs, hbs⟩ := ih (a.html_with_unique_ids counter).2
          exact ⟨(sp, (a.html_with_unique_ids counter).1) :: bs,
            by simp only [scanEvents, ha, Except.map, hbs]⟩
        | Strip =>
          obtain ⟨bs, hbs⟩ := ih counter
          exact ⟨(sp, a.strip) :: bs,
            by simp only [scanEvents, ha, Except.map, hbs]⟩

/-! ## Claims -/

/-- Claim C1: for every input document and event stream in which no fenced
block's info string begins with the trigger keyword, `preprocess` returns the
input text byte-identical, for every combination of `OnFailure`,
`AdmonitionDefaults`, and `RenderTextMode`. -/
theorem preprocess_roundtrip_no_trigger (content : String) (events : List (MdEvent × Span))
    (onFailure : OnFailure) (defaults : AdmonitionDefaults) (mode : RenderTextMode)
    (h : ∀ info span, (MdEvent.fencedCodeStart info, span) ∈ events → infoHeader info = none) :
    preprocess content events onFailure defaults mode = .ok content := by
  unfold preprocess
  rw [scanEvents_no_trigger content events onFailure defaults mode IdCounter.init h]
  rfl

/-- Claim C1 witness: a document of standard markdown (a table, a list
holding an unrelated fenced code block, inline HTML) is returned
byte-identical. -/
theorem preprocess_roundtrip_no_trigger_witness :
    preprocess "# H\n| a | b |\n|---|---|\n<del>\n*foo*\n</del>\n```rust\nlet x = 1;\n```\n"
      [(MdEvent.otherEvent, ⟨0, 3⟩), (MdEvent.fencedCodeStart "rust", ⟨43, 66⟩)]
      .Continue {} .Html =
    .ok "# H\n| a | b |\n|---|---|\n<del>\n*foo*\n</del>\n```rust\nlet x = 1;\n```\n" := by
  apply preprocess_roundtrip_no_trigger
  intro info span hm
  simp only [List.mem_cons, List.not_mem_nil, or_false] at hm
  rcases hm with hm | hm
  · exact absurd (congrArg Prod.fst hm) (by simp)
  · obtain ⟨h1, -⟩ := Prod.mk.injEq .. ▸ hm
    cases h1
    decide

/-- Claim C10: with `OnFailure.Continue`, `preprocess` never returns an error:
every parse failure is rendered inline, so the result is always `Ok` with a
transformed document. -/
theorem preprocess_continue_total (content : String) (events : List (MdEvent × Span))
    (defaults : AdmonitionDefaults) (mode : RenderTextMode) :
    ∃ out, preprocess content events .Continue defaults mode = .ok out := by
  obtain ⟨bs, h⟩ := scanEvents_continue_ok content events defaults mode IdCounter.init
  exact ⟨_, by unfold preprocess; rw [h]⟩

/-- Claim C4: with default configuration and Html mode, a fenced block whose
header is just the trigger keyword, with body `A simple admonition.`, renders
with id `admonition-note`, class `admonition note`, title text `Note`, and the
byte-exact HTML output contract (title wrapper with class `admonition-title`,
anchor link, unclassed body wrapper). -/
theorem preprocess_simple_admonish :
    preprocess "# Chapter\n```admonish\nA simple admonition.\n```\nText\n"
      [(MdEvent.otherEvent, ⟨0, 9⟩), (MdEvent.fencedCodeStart "admonish", ⟨10, 46⟩)]
      .Continue {} .Html =
      .ok ("# Chapter\n\n<div id=\"admonition-note\" class=\"admonition note\">\n<div class=\"admonition-title\">\n\nNote\n\n<a class=\"admonition-anchor-link\" href=\"#admonition-note\"></a>\n</div>\n<div>\n\nA simple admonition.\n\n</div>\n</div>\nText\n") ∧
    containsSub "# Chapter\n\n<div id=\"admonition-note\" class=\"admonition note\">\n<div class=\"admonition-title\">\n\nNote\n\n<a class=\"admonition-anchor-link\" href=\"#admonition-note\"></a>\n</div>\n<div>\n\nA simple admonition.\n\n</div>\n</div>\nText\n"
      "<div id=\"admonition-note\" class=\"admonition note\">\n<div class=\"admonition-title\">\n\nNote\n\n<a class=\"admonition-anchor-link\" href=\"#admonition-note\"></a>\n</div>\n<div>\n" := by
  exact ⟨rfl, by decide⟩

/-- Claim C5: a fenced block with header kind `caution` renders with outer
class `admonition warning` (the aliased CSS class) but title text `Caution`:
aliased kinds share a `css_class` while keeping their own `default_title`. -/
theorem preprocess_caution_aliased :
    AdmonitionKind.caution.cssClass = AdmonitionKind.warning.cssClass ∧
    AdmonitionKind.caution.cssClass = "warning" ∧
    AdmonitionKind.caution.defaultTitle = "Caution" ∧
    preprocess "# Chapter\n```admonish caution\nA warning with alternate title.\n```\nText\n"
      [(MdEvent.fencedCodeStart "admonish caution", ⟨10, 65⟩)] .Continue {} .Html =
      .ok ("# Chapter\n\n<div id=\"admonition-caution\" class=\"admonition warning\">\n<div class=\"admonition-title\">\n\nCaution\n\n<a class=\"admonition-anchor-link\" href=\"#admonition-caution\"></a>\n</div>\n<div>\n\nA warning with alternate title.\n\n</div>\n</div>\nText\n") ∧
    containsSub "# Chapter\n\n<div id=\"admonition-caution\" class=\"admonition warning\">\n<div class=\"admonition-title\">\n\nCaution\n\n<a class=\"admonition-anchor-link\" href=\"#admonition-caution\"></a>\n</div>\n<div>\n\nA warning with alternate title.\n\n</div>\n</div>\nText\n"
      "class=\"admonition warning\"" := by
  exact ⟨rfl, rfl, rfl, rfl, by decide⟩

/-- Claim C8: a block with `collapsible=true` renders as a collapsible
container (`details` with a `summary` title wrapper) while every other part
of the output is identical to the non-collapsible form: both outputs are the
same structure `noteHiddenHtml` at different container tags. -/
theorem preprocess_collapsible_container :
    preprocess "\n```admonish collapsible=true\nHidden\n```\n"
      [(MdEvent.fencedCodeStart "admonish collapsible=true", ⟨1, 40⟩)] .Continue {} .Html =
      .ok ("\n" ++ noteHiddenHtml "details" "summary" ++ "\n") ∧
    preprocess "\n```admonish\nHidden\n```\n"
      [(MdEvent.fencedCodeStart "admonish", ⟨1, 23⟩)] .Continue {} .Html =
      .ok ("\n" ++ noteHiddenHtml "div" "div" ++ "\n") := by
  exact ⟨rfl, rfl⟩

/-- Claim C6: under `Continue`, a directive-parse failure is rendered inline
as a `bug` admonition titled `Error rendering admonishment`, whose body is a
log-fenced block with the error message followed by a fenced reproduction of
the original, untouched source span, using a fence delimiter (4 backticks)
longer than any backtick run (3) inside that span; the rest of the document is
still processed normally. -/
theorem preprocess_continue_on_error :
    preprocess errorDoc errorDocEvents .Continue {} .Html = .ok errorDocExpected ∧
    containsSub errorDocExpected "class=\"admonition bug\"" ∧
    containsSub errorDocExpected ">\n\nError rendering admonishment\n\n<a " ∧
    containsSub errorDocExpected
      "````markdown\n```admonish title=\"\nBonus content!\n```\n````" ∧
    strSlice errorDoc 1 39 = "```admonish title=\"\nBonus content!\n```" ∧
    maxBacktickRun (strSlice errorDoc 1 39).data 0 0 = 3 ∧
    fenceFor (strSlice errorDoc 1 39) = "````" ∧
    containsSub errorDocExpected
      "<div id=\"admonition-note\" class=\"admonition note\">\n<div class=\"admonition-title\">\n\nNote\n\n<a class=\"admonition-anchor-link\" href=\"#admonition-note\"></a>\n</div>\n<div>\n\nStill works.\n\n</div>\n</div>\n" := by
  refine ⟨rfl, by decide, by decide, by decide, by decide, by decide, by decide, by decide⟩

/-- Claim C3 counterexample: the id of an empty-title block is allocated from
the constant slug `default` like any other id, so the second empty-title block
of one document gets `admonition-default-1`, not `admonition-default`: the
claim's `always yields id admonition-default` fails for repeat blocks. -/
theorem empty_title_repeat_counterexample :
    preprocess "\n```admonish title=\"\"\nOne\n```\n\n```admonish title=\"\"\nTwo\n```\n"
      [(MdEvent.fencedCodeStart "admonish title=\"\"", ⟨1, 29⟩),
       (MdEvent.fencedCodeStart "admonish title=\"\"", ⟨31, 59⟩)] .Continue {} .Html =
      .ok ("\n\n<div id=\"admonition-default\" class=\"admonition note\">\n<div>\n\nOne\n\n</div>\n</div>\n\n\n<div id=\"admonition-default-1\" class=\"admonition note\">\n<div>\n\nTwo\n\n</div>\n</div>\n") ∧
    containsSub "\n\n<div id=\"admonition-default\" class=\"admonition note\">\n<div>\n\nOne\n\n</div>\n</div>\n\n\n<div id=\"admonition-default-1\" class=\"admonition note\">\n<div>\n\nTwo\n\n</div>\n</div>\n"
      "id=\"admonition-default-1\"" := by
  exact ⟨rfl, by decide⟩

/-- Claim C3 (amended): a block carrying an explicit empty title (`title=""`)
renders no title wrapper, and its id is allocated from the constant slug
`default` - so on the slug's first use in the pass the id is
`admonition-default` - regardless of the block's kind and of any externally
configured default title. -/
theorem empty_title_suppressed (k : AdmonitionKind) (dt : Option String) (dc : Bool) :
    parse_admonition ("admonish " ++ k.token ++ " title=\"\"")
      { title := dt, collapsible := dc }
      ("```admonish " ++ k.token ++ " title=\"\"\nA simple admonition.\n```") .Continue =
      some (.ok (emptyTitleAdmonish k dc)) ∧
    (emptyTitleAdmonish k dc).title = none ∧
    (emptyTitleAdmonish k dc).slugBase = "default" ∧
    ((emptyTitleAdmonish k dc).html_with_unique_ids IdCounter.init).1 =
      htmlRender (emptyTitleAdmonish k dc) "admonition-default" ∧
    containsSub (htmlRender (emptyTitleAdmonish k dc) "admonition-default")
      "id=\"admonition-default\"" ∧
    ¬ containsSub (htmlRender (emptyTitleAdmonish k dc) "admonition-default")
      "admonition-title" := by
  cases k <;> cases dc <;> exact ⟨rfl, rfl, rfl, rfl, by decide, by decide⟩

/-- Under `Bail`, the scanning loop turns the first parse failure into the
terminating error that embeds the failing block's verbatim span, whatever
the allocator state. -/
theorem scanEvents_bail_first_failure (content : String) (defaults : AdmonitionDefaults)
    (mode : RenderTextMode) (info header msg : String) (span : Span)
    (post : List (MdEvent × Span))
    (hinfo : infoHeader info = some header)
    (hfail : parseDirective header = .error msg) :
    ∀ (pre : List (MdEvent × Span)) (counter : IdCounter),
      (∀ info' sp', (MdEvent.fencedCodeStart info', sp') ∈ pre →
        ∀ e, parse_admonition info' defaults (strSlice content sp'.start sp'.stop) .Bail ≠
          some (.error e)) →
      scanEvents content (pre ++ (MdEvent.fencedCodeStart info, span) :: post)
        .Bail defaults mode counter =
        .error ("Error processing admonition, bailing:\n" ++
          strSlice content span.start span.stop) := by
  intro pre
  induction pre with
  | nil =>
    intro counter _
    simp only [List.nil_append, scanEvents, parse_admonition, hinfo, hfail]
  | cons e rest ih =>
    intro counter hpre
    obtain ⟨ev, sp'⟩ := e
    have hrest : ∀ info' sp'', (MdEvent.fencedCodeStart info', sp'') ∈ rest →
        ∀ e, parse_admonition info' defaults (strSlice content sp''.start sp''.stop) .Bail ≠
          some (.error e) :=
      fun info' sp'' hm => hpre info' sp'' (List.mem_cons_of_mem _ hm)
    cases ev with
    | otherEvent =>
      simp only [List.cons_append, scanEvents]
      exact ih counter hrest
    | fencedCodeStart info' =>
      rcases hp : parse_admonition info' defaults (strSlice content sp'.start sp'.stop)
          .Bail with - | r
      · simp only [List.cons_append, scanEvents, hp]
        exact ih counter hrest
      · rcases r with e' | a
        · exact absurd hp (hpre info' sp' (List.mem_cons_self _ _) e')
        · cases mode with
          | Html =>
            simp only [List.cons_append, scanEvents, hp, List.append_eq, Except.map]
            rw [ih (a.html_with_unique_ids counter).2 hrest]
          | Strip =>
            simp only [List.cons_append, scanEvents, hp, List.append_eq, Except.map]
            rw [ih counter hrest]

/-- Claim C7: under `Bail`, the first directive-parse failure makes
`preprocess` return a terminating error whose message embeds the exact
original source span of the failing block verbatim; no partial transformed
document is returned. -/
theorem preprocess_bail_first_failure (content : String) (pre post : List (MdEvent × Span))
    (info header msg : String) (span : Span) (defaults : AdmonitionDefaults)
    (mode : RenderTextMode)
    (hinfo : infoHeader info = some header)
    (hfail : parseDirective header = .error msg)
    (hpre : ∀ info' sp', (MdEvent.fencedCodeStart info', sp') ∈ pre →
      ∀ e, parse_admonition info' defaults (strSlice content sp'.start sp'.stop) .Bail ≠
        some (.error e)) :
    preprocess content (pre ++ (MdEvent.fencedCodeStart info, span) :: post)
      .Bail defaults mode =
      .error ("Error processing admonition, bailing:\n" ++
        strSlice content span.start span.stop) := by
  unfold preprocess
  rw [scanEvents_bail_first_failure content defaults mode info header msg span post hinfo hfail
    pre IdCounter.init hpre]

/-- Claim C7 witness: the bail scenario of `src/markdown.rs`
(`bail_on_error_output`): the error message embeds the malformed block's
source verbatim. -/
theorem preprocess_bail_first_failure_witness :
    preprocess "\n```admonish title=\"\nBonus content!\n```\n"
      [(MdEvent.otherEvent, ⟨0, 0⟩), (MdEvent.fencedCodeStart "admonish title=\"", ⟨1, 39⟩)]
      .Bail {} .Html =
      .error "Error processing admonition, bailing:\n```admonish title=\"\nBonus content!\n```" := by
  have h := preprocess_bail_first_failure "\n```admonish title=\"\nBonus content!\n```\n"
    [(MdEvent.otherEvent, ⟨0, 0⟩)] [] "admonish title=\"" "title=\""
    "attribute table: unterminated basic string" ⟨1, 39⟩ {} .Html rfl rfl
    (by
      intro info' sp' hm e
      simp only [List.mem_cons, List.not_mem_nil, or_false] at hm
      exact absurd (congrArg Prod.fst hm) (by simp))
  exact h

/-! ### Decimal rendering: correctness and injectivity -/

/-- String append acts as list append on the underlying data. -/
theorem strData_append (s t : String) : (s ++ t).data = s.data ++ t.data := rfl

/-- `digitsRevAux` with enough fuel computes the little-endian decimal
digits: folding them back recovers the number. -/
theorem fromDigits_digitsRevAux : ∀ fuel n, n ≤ fuel → fromDigitsLE (digitsRevAux fuel n) = n := by
  intro fuel
  induction fuel with
  | zero =>
    intro n h
    have h0 : n = 0 := Nat.le_zero.mp h
    subst h0; rfl
  | succ fuel ih =>
    intro n h
    match n with
    | 0 => rfl
    | m + 1 =>
      have hdiv : (m + 1) / 10 ≤ fuel := by
        have := Nat.div_lt_self (Nat.succ_pos m) (by norm_num : 1 < 10)
        omega
      show fromDigitsLE (((m + 1) % 10) :: digitsRevAux fuel ((m + 1) / 10)) = m + 1
      simp only [fromDigitsLE]
      rw [ih _ hdiv, Nat.mod_add_div]

/-- Every digit produced by `digitsRevAux` is below ten. -/
theorem digitsRevAux_lt : ∀ fuel n d, d ∈ digitsRevAux fuel n → d < 10 := by
  intro fuel
  induction fuel with
  | zero =>
    intro n d hd
    match n with
    | 0 => simp [digitsRevAux] at hd
    | m + 1 => simp [digitsRevAux] at hd
  | succ fuel ih =>
    intro n d hd
    match n with
    | 0 => simp [digitsRevAux] at hd
    | m + 1 =>
      rw [show digitsRevAux (fuel + 1) (m + 1) =
          ((m + 1) % 10) :: digitsRevAux fuel ((m + 1) / 10) from rfl] at hd
      rcases List.mem_cons.mp hd with h | h
      · subst h; exact Nat.mod_lt _ (by norm_num)
      · exact ih _ _ h

/-- `digitChar` is injective on `Fin 10`. -/
theorem digitChar_inj_fin : ∀ a b : Fin 10, digitChar a.val = digitChar b.val → a = b := by
  decide

/-- `digitChar` is injective below ten. -/
theorem digitChar_inj_lt (a b : Nat) (ha : a < 10) (hb : b < 10)
    (h : digitChar a = digitChar b) : a = b :=
  congrArg Fin.val (digitChar_inj_fin ⟨a, ha⟩ ⟨b, hb⟩ h)

/-- Mapping `digitChar` over digit lists is injective. -/
theorem mapDigitChar_inj : ∀ xs ys : List Nat, (∀ x ∈ xs, x < 10) → (∀ y ∈ ys, y < 10) →
    xs.map digitChar = ys.map digitChar → xs = ys := by
  intro xs
  induction xs with
  | nil =>
    intro ys _ _ h
    cases ys with
    | nil => rfl
    | cons y ys => simp at h
  | cons x xs ih =>
    intro ys hx hy h
    cases ys with
    | nil => simp at h
    | cons y ys =>
      simp only [List.map_cons, List.cons.injEq] at h
      have hxy := digitChar_inj_lt x y (hx x (List.mem_cons_self _ _))
        (hy y (List.mem_cons_self _ _)) h.1
      rw [hxy, ih ys (fun z hz => hx z (List.mem_cons_of_mem _ hz))
        (fun z hz => hy z (List.mem_cons_of_mem _ hz)) h.2]

/-- The decimal rendering is injective. -/
theorem natDecimal_inj {a b : Nat} (h : (natDecimal a).data = (natDecimal b).data) : a = b := by
  have h1 : ((digitsRevAux a a).map digitChar).reverse =
      ((digitsRevAux b b).map digitChar).reverse := h
  have h2 : (digitsRevAux a a).map digitChar = (digitsRevAux b b).map digitChar :=
    List.reverse_injective h1
  have h3 : digitsRevAux a a = digitsRevAux b b :=
    mapDigitChar_inj _ _ (fun x hx => digitsRevAux_lt a a x hx)
      (fun y hy => digitsRevAux_lt b b y hy) h2
  calc a = fromDigitsLE (digitsRevAux a a) := (fromDigits_digitsRevAux a a (le_refl a)).symm
    _ = fromDigitsLE (digitsRevAux b b) := by rw [h3]
    _ = b := fromDigits_digitsRevAux b b (le_refl b)

/-- The decimal rendering of a positive number is nonempty. -/
theorem natDecimal_pos_len {n : Nat} (h : 0 < n) : 0 < (natDecimal n).data.length := by
  match n with
  | m + 1 =>
    show 0 < (((digitsRevAux (m + 1) (m + 1)).map digitChar).reverse).length
    rw [show digitsRevAux (m + 1) (m + 1) =
        ((m + 1) % 10) :: digitsRevAux m ((m + 1) / 10) from rfl]
    simp

/-- For one slug, `expectedId` is injective in the repeat count. -/
theorem expectedId_inj (s : String) {a b : Nat} (h : expectedId s a = expectedId s b) : a = b := by
  unfold expectedId at h
  by_cases ha : a = 0
  · by_cases hb : b = 0
    · omega
    · exfalso
      rw [if_pos ha, if_neg hb] at h
      have hd := congrArg String.data h
      simp only [strData_append] at hd
      have hlen := congrArg List.length hd
      simp only [List.length_append] at hlen
      have hpos := natDecimal_pos_len (Nat.pos_of_ne_zero hb)
      omega
  · by_cases hb : b = 0
    · exfalso
      rw [if_neg ha, if_pos hb] at h
      have hd := congrArg String.data h
      simp only [strData_append] at hd
      have hlen := congrArg List.length hd
      simp only [List.length_append] at hlen
      have hpos := natDecimal_pos_len (Nat.pos_of_ne_zero ha)
      omega
    · rw [if_neg ha, if_neg hb] at h
      have hd := congrArg String.data h
      simp only [strData_append] at hd
      exact natDecimal_inj (List.append_cancel_left hd)

/-! ### The allocator run, indexed -/

/-- The id returned by the `j`-th `allocate` call: `expectedId` of the slug at
the repeat count accumulated so far (base state plus earlier occurrences). -/
theorem allocateRunAux_getElem :
    ∀ (slugs : List String) (counter : IdCounter) (j : Nat), j < slugs.length →
      (allocateRunAux counter slugs)[j]? =
        some (expectedId (slugs.getD j "")
          (counter (slugs.getD j "") + (slugs.take j).count (slugs.getD j ""))) := by
  intro slugs
  induction slugs with
  | nil => intro counter j h; simp at h
  | cons s rest ih =>
    intro counter j hj
    have hstep : allocateRunAux counter (s :: rest) =
        (allocate counter s).1 :: allocateRunAux (allocate counter s).2 rest := rfl
    match j with
    | 0 =>
      rw [hstep, List.getElem?_cons_zero, List.getD_cons_zero, List.take_zero, List.count_nil,
        Nat.add_zero]
      rfl
    | j + 1 =>
      have hr : j < rest.length := by
        simp only [List.length_cons] at hj
        omega
      rw [hstep, List.getElem?_cons_succ, ih (allocate counter s).2 j hr,
        List.getD_cons_succ, List.take_succ_cons]
      have harg : (allocate counter s).2 (rest.getD j "") + (rest.take j).count (rest.getD j "") =
          counter (rest.getD j "") + (s :: rest.take j).count (rest.getD j "") := by
        show (if rest.getD j "" = s then counter s + 1 else counter (rest.getD j "")) +
            (rest.take j).count (rest.getD j "") = _
        rw [List.count_cons]
        by_cases hts : rest.getD j "" = s
        · rw [hts, if_pos rfl, if_pos (beq_self_eq_true s)]
          omega
        · have hbe : ¬ ((s == rest.getD j "") = true) := by
            simp only [beq_iff_eq]
            exact fun hss => hts hss.symm
          rw [if_neg hts, if_neg hbe]
          omega
      rw [harg]

/-- Claim C2 counterexample: ids from one pass are not globally pairwise
distinct: a slug that textually equals another slug with a numeric suffix
(here from titles `My Note 1`, `My Note`, `My Note`) collides with the
allocator's repeat id. -/
theorem allocate_not_globally_distinct :
    allocateRun [slugify "My Note 1", slugify "My Note", slugify "My Note"] =
      ["admonition-my-note-1", "admonition-my-note", "admonition-my-note-1"] ∧
    ¬ (allocateRun [slugify "My Note 1", slugify "My Note", slugify "My Note"]).Nodup := by
  exact ⟨rfl, by decide⟩

/-- Claim C2 (amended): within one pass the `j`-th allocated id is
deterministic: `admonition-<slug>` on the slug's first use and
`admonition-<slug>-<n>` on its n-th repeat, in order of encounter; any two
calls with the same slug (same rendered title) receive distinct ids.  (Ids of
*different* slugs may collide when one slug equals the other plus a numeric
suffix.) -/
theorem allocate_ids (slugs : List String) (j : Nat) (hj : j < slugs.length) :
    (allocateRun slugs)[j]? =
      some (expectedId (slugs.getD j "") ((slugs.take j).count (slugs.getD j ""))) ∧
    ∀ i, i < j → slugs.getD i "" = slugs.getD j "" →
      (allocateRun slugs)[i]? ≠ (allocateRun slugs)[j]? := by
  have hmain : ∀ m, m < slugs.length → (allocateRun slugs)[m]? =
      some (expectedId (slugs.getD m "") ((slugs.take m).count (slugs.getD m ""))) := by
    intro m hm
    have h := allocateRunAux_getElem slugs IdCounter.init m hm
    rw [show IdCounter.init (slugs.getD m "") + (slugs.take m).count (slugs.getD m "") =
        (slugs.take m).count (slugs.getD m "") from Nat.zero_add _] at h
    exact h
  refine ⟨hmain j hj, ?_⟩
  intro i hi heq hne
  rw [hmain i (hi.trans hj), hmain j hj, heq] at hne
  injection hne with hne'
  have hcnt := expectedId_inj _ hne'
  have hlt : (slugs.take i).count (slugs.getD j "") < (slugs.take j).count (slugs.getD j "") := by
    have hiv : i < slugs.length := hi.trans hj
    have h1 : slugs.take j = slugs.take i ++ (slugs.drop i).take (j - i) := by
      rw [← List.take_add]
      congr 1
      omega
    rw [h1, List.count_append]
    have hd : slugs.drop i = slugs.getD i "" :: slugs.drop (i + 1) := by
      rw [List.getD_eq_getElem slugs "" hiv]
      exact List.drop_eq_getElem_cons hiv
    have hji : j - i = (j - i - 1) + 1 := by omega
    have h2 : 0 < ((slugs.drop i).take (j - i)).count (slugs.getD j "") := by
      rw [hd, hji, List.take_succ_cons, List.count_cons, heq]
      simp only [beq_self_eq_true, if_true]
      omega
    omega
  omega

/-- Claim C2 witness: two `my-note` calls: the second id is
`admonition-my-note-1` and differs from the first. -/
theorem allocate_ids_witness :
    (allocateRun ["my-note", "my-note"])[1]? = some "admonition-my-note-1" ∧
    (allocateRun ["my-note", "my-note"])[0]? ≠ (allocateRun ["my-note", "my-note"])[1]? := by
  have h := allocate_ids ["my-note", "my-note"] 1 (by decide)
  refine ⟨?_, h.2 0 (by decide) (by decide)⟩
  rw [h.1]
  decide

/-! ### The splicer as a frame operation -/

/-- In a span chain ending at pivot `(sp, r)`, the base offset is at most the
pivot's start. -/
theorem spanChain_start_le :
    ∀ (bs : List (Span × String)) (pos len : Nat) (sp : Span) (r : String),
      spanChain pos len (bs ++ [(sp, r)]) = true → pos ≤ sp.start := by
  intro bs
  induction bs with
  | nil =>
    intro pos len sp r h
    simp only [List.nil_append, spanChain, Bool.and_eq_true, decide_eq_true_eq] at h
    exact h.1.1.1
  | cons b rest ih =>
    intro pos len sp r h
    obtain ⟨sp0, r0⟩ := b
    simp only [List.cons_append, spanChain, Bool.and_eq_true, decide_eq_true_eq] at h
    exact le_trans (le_trans h.1.1.1 h.1.1.2) (ih sp0.stop len sp r h.2)

/-- In a span chain ending at pivot `(sp, r)`, the pivot is ordered and in
bounds. -/
theorem spanChain_pivot :
    ∀ (bs : List (Span × String)) (pos len : Nat) (sp : Span) (r : String),
      spanChain pos len (bs ++ [(sp, r)]) = true → sp.start ≤ sp.stop ∧ sp.stop ≤ len := by
  intro bs
  induction bs with
  | nil =>
    intro pos len sp r h
    simp only [List.nil_append, spanChain, Bool.and_eq_true, decide_eq_true_eq] at h
    exact ⟨h.1.1.2, h.1.2⟩
  | cons b rest ih =>
    intro pos len sp r h
    obtain ⟨sp0, r0⟩ := b
    simp only [List.cons_append, spanChain, Bool.and_eq_true, decide_eq_true_eq] at h
    exact ih sp0.stop len sp r h.2

/-- Dropping the pivot from a span chain leaves a chain, for any length bound
of at least the pivot's start. -/
theorem spanChain_relax :
    ∀ (bs : List (Span × String)) (pos len len2 : Nat) (sp : Span) (r : String),
      spanChain pos len (bs ++ [(sp, r)]) = true → sp.start ≤ len2 →
      spanChain pos len2 bs = true := by
  intro bs
  induction bs with
  | nil => intro pos len len2 sp r _ _; rfl
  | cons b rest ih =>
    intro pos len len2 sp r h h2
    obtain ⟨sp0, r0⟩ := b
    simp only [List.cons_append, spanChain, Bool.and_eq_true, decide_eq_true_eq] at h
    have hstop : sp0.stop ≤ sp.start := spanChain_start_le rest sp0.stop len sp r h.2
    simp only [spanChain, Bool.and_eq_true, decide_eq_true_eq]
    exact ⟨⟨⟨h.1.1.1, h.1.1.2⟩, le_trans hstop h2⟩, ih sp0.stop len len2 sp r h.2 h2⟩

/-- Substituting the last span first commutes with the interleaving
description: the modified text interleaved with the earlier spans equals the
original text interleaved with all spans. -/
theorem interleave_snoc (c : List Char) (sp : Span) (r : String) :
    ∀ (bs : List (Span × String)) (pos : Nat),
      spanChain pos c.length (bs ++ [(sp, r)]) = true →
      interleave (c.take sp.start ++ r.data ++ c.drop sp.stop) pos bs =
        interleave c pos (bs ++ [(sp, r)]) := by
  intro bs
  induction bs with
  | nil =>
    intro pos h
    simp only [List.nil_append, spanChain, Bool.and_eq_true, decide_eq_true_eq] at h
    obtain ⟨⟨⟨h1, h2⟩, h3⟩, -⟩ := h
    have hsl : sp.start ≤ c.length := le_trans h2 h3
    have hlenA : (c.take sp.start).length = sp.start := by
      rw [List.length_take]
      omega
    simp only [interleave]
    rw [List.drop_append_eq_append_drop, List.drop_append_eq_append_drop, List.drop_take]
    have hz1 : pos - (c.take sp.start).length = 0 := by omega
    have hz2 : pos - (c.take sp.start ++ r.data).length = 0 := by
      rw [List.length_append]
      omega
    rw [hz1, hz2, List.drop_zero, List.drop_zero]
  | cons b rest ih =>
    intro pos h
    obtain ⟨sp0, r0⟩ := b
    simp only [List.cons_append, spanChain, Bool.and_eq_true, decide_eq_true_eq] at h
    obtain ⟨⟨⟨h1, h2⟩, h3⟩, h4⟩ := h
    have hstart : sp0.stop ≤ sp.start := spanChain_start_le rest sp0.stop c.length sp r h4
    have hptv := spanChain_pivot rest sp0.stop c.length sp r h4
    have hsl : sp.start ≤ c.length := le_trans hptv.1 hptv.2
    have hlenA : (c.take sp.start).length = sp.start := by
      rw [List.length_take]
      omega
    have hk : sp0.start ≤ sp.start := le_trans h2 hstart
    simp only [interleave]
    congr 1
    · congr 1
      have htake : (c.take sp.start ++ r.data ++ c.drop sp.stop).take sp0.start =
          c.take sp0.start := by
        rw [List.take_append_eq_append_take, List.take_append_eq_append_take]
        have hz1 : sp0.start - (c.take sp.start).length = 0 := by omega
        have hz2 : sp0.start - (c.take sp.start ++ r.data).length = 0 := by
          rw [List.length_append]
          omega
        rw [hz1, hz2, List.take_zero, List.take_zero, List.append_nil, List.append_nil,
          List.take_take, min_eq_left hk]
      rw [← List.drop_take, htake, List.drop_take]
    · exact ih sp0.stop h4

/-- Processing the last span first: splicing a snoc list first applies the
final (highest-offset) replacement to the text. -/
theorem splice_snoc (c : String) (bs : List (Span × String)) (b : Span × String) :
    splice c (bs ++ [b]) = splice (strTake c b.1.start ++ b.2 ++ strDrop c b.1.stop) bs := by
  unfold splice
  rw [List.reverse_append, List.reverse_singleton, List.singleton_append, List.foldl_cons]

/-- Claim C9: the splicer applies the collected `(span, replacement)` pairs
from last to first (that is how `splice` folds), and the result equals the
original document with exactly the recognized spans substituted: each segment
outside the spans is a verbatim slice of the original, in original order
(`interleave`). -/
theorem splice_frame :
    ∀ (blocks : List (Span × String)) (content : String),
      spanChain 0 content.data.length blocks = true →
      (splice content blocks).data = interleave content.data 0 blocks := by
  intro blocks
  induction blocks using List.reverseRecOn with
  | nil =>
    intro content _
    show (splice content []).data = content.data.drop 0
    rw [List.drop_zero]
    rfl
  | append_singleton bs b ih =>
    intro content h
    obtain ⟨sp, r⟩ := b
    rw [splice_snoc]
    have hdata : (strTake content sp.start ++ r ++ strDrop content sp.stop).data =
        content.data.take sp.start ++ r.data ++ content.data.drop sp.stop := rfl
    have hptv := spanChain_pivot bs 0 content.data.length sp r h
    have hlen : sp.start ≤ (strTake content sp.start ++ r ++ strDrop content sp.stop).data.length := by
      rw [hdata]
      simp only [List.length_append, List.length_take]
      omega
    have hbs : spanChain 0 (strTake content sp.start ++ r ++ strDrop content sp.stop).data.length
        bs = true :=
      spanChain_relax bs 0 content.data.length _ sp r h hlen
    rw [ih _ hbs, hdata]
    exact interleave_snoc content.data sp r bs 0 h

/-- Claim C9 witness: a concrete two-span splice: the chain holds, the frame
equation holds, and the output is the original with exactly the two spans
substituted. -/
theorem splice_frame_witness :
    spanChain 0 ("abcdef" : String).data.length [(⟨1, 2⟩, "XY"), (⟨4, 6⟩, "Z")] = true ∧
    (splice "abcdef" [(⟨1, 2⟩, "XY"), (⟨4, 6⟩, "Z")]).data =
      interleave ("abcdef" : String).data 0 [(⟨1, 2⟩, "XY"), (⟨4, 6⟩, "Z")] ∧
    splice "abcdef" [(⟨1, 2⟩, "XY"), (⟨4, 6⟩, "Z")] = "aXYcdZ" := by
  refine ⟨by decide, splice_frame [(⟨1, 2⟩, "XY"), (⟨4, 6⟩, "Z")] "abcdef" (by decide), by decide⟩

end MdbookAdmonish
